import Mathlib

/-!
A shallow embedding of the accounting-suite server: its data model
(transactions and inventory items), the CRUD handlers, the two report
aggregators, and the zod-validated RPC boundary, together with proofs of
the specification's claims about them.

Conventions of the embedding:
* decimal columns (amount, unitCost, sellingPrice) are rationals;
* dates and timestamps are integers (a timeline ordered as the code's
  `Date` values are);
* the relational store is a pair of lists plus the id counters the
  database would keep; the handler-side `new Date()` / `defaultNow()`
  timestamps are modelled by a monotone clock carried in the store;
* a handler that can `throw` returns `Except Err α × Store`: the thrown
  error plus the store unchanged (every operation is all-or-nothing
  against the store), or the result plus the updated store.
-/

namespace Accounting

/-- Transaction type enum, from `transactionTypeSchema` (`Income` / `Expense`). -/
inductive TransactionType where
  | Income
  | Expense
deriving DecidableEq, Repr

/-- Transaction category enum, the 11 fixed labels of `transactionCategorySchema`. -/
inductive TransactionCategory where
  | Sales
  | Rent
  | Utilities
  | Purchases
  | Salaries
  | Marketing
  | Equipment
  | Insurance
  | OfficeSupplies
  | Travel
  | Other
deriving DecidableEq, Repr

/-- A stored transaction row, from `transactionSchema` / `transactionsTable`. -/
structure Transaction where
  id : Nat
  date : Int
  description : String
  amount : ℚ
  type : TransactionType
  category : TransactionCategory
  created_at : Int
deriving DecidableEq, Repr

/-- A stored inventory item row, from `inventoryItemSchema` / `inventoryItemsTable`. -/
structure InventoryItem where
  id : Nat
  itemName : String
  sku : String
  quantity : Int
  unitCost : ℚ
  sellingPrice : ℚ
  created_at : Int
  updated_at : Int
deriving DecidableEq, Repr

/-- The persistent store: the two tables, the serial id counters the
database keeps for their generated primary keys, and the monotone clock
standing for wall-clock time (`new Date()` / `defaultNow()`). -/
structure Store where
  transactions : List Transaction
  inventoryItems : List InventoryItem
  nextTransactionId : Nat
  nextItemId : Nat
  clock : Int
deriving DecidableEq, Repr

/-- The store a fresh database starts from. -/
def emptyStore : Store :=
  { transactions := []
    inventoryItems := []
    nextTransactionId := 1
    nextItemId := 1
    clock := 0 }

/-- The error taxonomy of the spec: ValidationError (zod rejection at the
RPC boundary), NotFound, Conflict (the handlers' thrown errors). -/
inductive Err where
  | validationErr
  | notFound
  | conflict
deriving DecidableEq, Repr

/-- Result of `getFinancialSummary`, from `financialSummarySchema`. -/
structure FinancialSummary where
  totalIncome : ℚ
  totalExpenses : ℚ
  netProfit : ℚ
  periodStart : Int
  periodEnd : Int
deriving DecidableEq, Repr

/-- Result of `getInventorySummary`, from `inventorySummarySchema`. -/
structure InventorySummary where
  totalItems : Nat
  totalValue : ℚ
  lowStockItems : List InventoryItem
  lowStockThreshold : Int
deriving DecidableEq, Repr

/-- The `{ success: boolean }` payload the delete handlers resolve with. -/
structure DeleteResult where
  success : Bool
deriving DecidableEq, Repr

/-- `getFinancialSummary` (handlers/get_financial_summary.ts): two
aggregate queries over transactions with date in `[startDate, endDate]`
(`gte`/`lte`, both inclusive), one summing `amount` where type = Income
and one where type = Expense; a null sum (no rows) becomes 0;
netProfit = totalIncome - totalExpenses. -/
def getFinancialSummary (s : Store) (startDate endDate : Int) : FinancialSummary :=
  let inRange := s.transactions.filter fun t => startDate ≤ t.date && t.date ≤ endDate
  let totalIncome := ((inRange.filter fun t => t.type == .Income).map Transaction.amount).sum
  let totalExpenses := ((inRange.filter fun t => t.type == .Expense).map Transaction.amount).sum
  { totalIncome := totalIncome
    totalExpenses := totalExpenses
    netProfit := totalIncome - totalExpenses
    periodStart := startDate
    periodEnd := endDate }

/-- `getInventorySummary` (handlers/get_inventory_summary.ts): fetch all
items; totalItems is their count; totalValue is the reduce summing
quantity * unitCost; lowStockItems is the query for quantity ≤ threshold
(`lte`, inclusive); the input threshold is echoed back. -/
def getInventorySummary (s : Store) (lowStockThreshold : Int) : InventorySummary :=
  let allItems := s.inventoryItems
  { totalItems := allItems.length
    totalValue := allItems.foldl (fun acc item => acc + (item.quantity : ℚ) * item.unitCost) 0
    lowStockItems := allItems.filter fun item => item.quantity ≤ lowStockThreshold
    lowStockThreshold := lowStockThreshold }

/-! ### Handler inputs, from the zod input schemas in schema.ts -/

/-- `CreateTransactionInput`. -/
structure CreateTransactionInput where
  date : Int
  description : String
  amount : ℚ
  type : TransactionType
  category : TransactionCategory
deriving DecidableEq, Repr

/-- `UpdateTransactionInput`: an id plus a partial field set. -/
structure UpdateTransactionInput where
  id : Nat
  date : Option Int
  description : Option String
  amount : Option ℚ
  type : Option TransactionType
  category : Option TransactionCategory
deriving DecidableEq, Repr

/-- `CreateInventoryItemInput`. -/
structure CreateInventoryItemInput where
  itemName : String
  sku : String
  quantity : Int
  unitCost : ℚ
  sellingPrice : ℚ
deriving DecidableEq, Repr

/-- `UpdateInventoryItemInput`: an id plus a partial field set. -/
structure UpdateInventoryItemInput where
  id : Nat
  itemName : Option String
  sku : Option String
  quantity : Option Int
  unitCost : Option ℚ
  sellingPrice : Option ℚ
deriving DecidableEq, Repr

/-! ### Record handlers -/

/-- `createTransaction` (handlers/create_transaction.ts): inserts the row;
the database assigns the serial id and the `defaultNow()` created_at. -/
def createTransaction (s : Store) (input : CreateTransactionInput) :
    Except Err Transaction × Store :=
  let t : Transaction :=
    { id := s.nextTransactionId
      date := input.date
      description := input.description
      amount := input.amount
      type := input.type
      category := input.category
      created_at := s.clock }
  (.ok t,
    { s with
      transactions := s.transactions ++ [t]
      nextTransactionId := s.nextTransactionId + 1
      clock := s.clock + 1 })

/-- `createInventoryItem` (src/unnamed/part_001): first selects any row
with the input's SKU and throws a conflict error if one exists, then
inserts; the database assigns the serial id and both timestamps. -/
def createInventoryItem (s : Store) (input : CreateInventoryItemInput) :
    Except Err InventoryItem × Store :=
  if s.inventoryItems.any fun item => item.sku == input.sku then
    (.error .conflict, s)
  else
    let item : InventoryItem :=
      { id := s.nextItemId
        itemName := input.itemName
        sku := input.sku
        quantity := input.quantity
        unitCost := input.unitCost
        sellingPrice := input.sellingPrice
        created_at := s.clock
        updated_at := s.clock }
    (.ok item,
      { s with
        inventoryItems := s.inventoryItems ++ [item]
        nextItemId := s.nextItemId + 1
        clock := s.clock + 1 })

/-- The row produced by `updateTransaction`'s `.set(updateData)`: each
field present in the partial input replaces the stored one, everything
else keeps its prior value. -/
def applyTransactionUpdate (t : Transaction) (input : UpdateTransactionInput) : Transaction :=
  { t with
    date := input.date.getD t.date
    description := input.description.getD t.description
    amount := input.amount.getD t.amount
    type := input.type.getD t.type
    category := input.category.getD t.category }

/-- `updateTransaction` (src/unnamed/part_008): first selects the row by
id and throws a not-found error if absent, then updates, setting only the
provided fields, and returns the updated row. -/
def updateTransaction (s : Store) (input : UpdateTransactionInput) :
    Except Err Transaction × Store :=
  match s.transactions.find? fun t => t.id == input.id with
  | none => (.error .notFound, s)
  | some t0 =>
    (.ok (applyTransactionUpdate t0 input),
      { s with
        transactions := s.transactions.map fun t =>
          if t.id == input.id then applyTransactionUpdate t input else t
        clock := s.clock + 1 })

/-- The row produced by `updateInventoryItem`'s `.set(updateValues)`:
each field present in the partial input replaces the stored one, and
updated_at is always set to the current time. -/
def applyItemUpdate (item : InventoryItem) (input : UpdateInventoryItemInput)
    (now : Int) : InventoryItem :=
  { item with
    itemName := input.itemName.getD item.itemName
    sku := input.sku.getD item.sku
    quantity := input.quantity.getD item.quantity
    unitCost := input.unitCost.getD item.unitCost
    sellingPrice := input.sellingPrice.getD item.sellingPrice
    updated_at := now }

/-- `updateInventoryItem` (src/unnamed/part_006): select by id, throwing
not-found if absent; when a SKU is supplied (`if (input.sku)` — a present,
non-empty string), select rows with that SKU and a different id and throw
a conflict error if any exists; then update, always bumping updated_at. -/
def updateInventoryItem (s : Store) (input : UpdateInventoryItemInput) :
    Except Err InventoryItem × Store :=
  match s.inventoryItems.find? fun item => item.id == input.id with
  | none => (.error .notFound, s)
  | some item0 =>
    let skuConflict :=
      match input.sku with
      | some k => k != "" && s.inventoryItems.any fun item =>
          item.sku == k && !(item.id == input.id)
      | none => false
    if skuConflict then
      (.error .conflict, s)
    else
      (.ok (applyItemUpdate item0 input s.clock),
        { s with
          inventoryItems := s.inventoryItems.map fun item =>
            if item.id == input.id then applyItemUpdate item input s.clock else item
          clock := s.clock + 1 })

/-- `deleteTransaction` (handlers/delete_transaction.ts): delete the rows
with the id, returning them; an empty returned list means the id did not
exist and a not-found error is thrown, otherwise `{ success: true }`. -/
def deleteTransaction (s : Store) (id : Nat) : Except Err DeleteResult × Store :=
  if s.transactions.any fun t => t.id == id then
    (.ok { success := true },
      { s with
        transactions := s.transactions.filter fun t => !(t.id == id)
        clock := s.clock + 1 })
  else
    (.error .notFound, s)

/-- `deleteInventoryItem` (handlers/delete_inventory_item.ts): delete the
rows with the id, returning them; an empty returned list means the id did
not exist and a not-found error is thrown, otherwise `{ success: true }`. -/
def deleteInventoryItem (s : Store) (id : Nat) : Except Err DeleteResult × Store :=
  if s.inventoryItems.any fun item => item.id == id then
    (.ok { success := true },
      { s with
        inventoryItems := s.inventoryItems.filter fun item => !(item.id == id)
        clock := s.clock + 1 })
  else
    (.error .notFound, s)

/-! ### List handlers -/

/-- The ordering `getTransactions` requests from the database:
`orderBy(desc(date), desc(created_at))`. -/
def transactionOrder (a b : Transaction) : Prop :=
  b.date < a.date ∨ (a.date = b.date ∧ b.created_at ≤ a.created_at)

instance : DecidableRel transactionOrder := fun a b => by
  unfold transactionOrder; infer_instance

/-- The ordering `getInventoryItems` requests from the database:
`orderBy(asc(itemName))`. -/
def itemNameOrder (a b : InventoryItem) : Prop :=
  a.itemName ≤ b.itemName

instance : DecidableRel itemNameOrder := fun a b => by
  unfold itemNameOrder; infer_instance

/-- `getTransactions` (src/unnamed/part_004): all transactions, ordered
by date descending, most recent first (created_at descending as the tie
break). -/
def getTransactions (s : Store) : List Transaction :=
  s.transactions.insertionSort transactionOrder

/-- `getInventoryItems` (handlers/get_inventory_items.ts): all inventory
items, ordered by itemName ascending. -/
def getInventoryItems (s : Store) : List InventoryItem :=
  s.inventoryItems.insertionSort itemNameOrder

/-! ### RPC boundary: zod validation, then the handler

tRPC runs `.input(schema)` before the handler, so a malformed request is
rejected with a validation error before any store access. -/

/-- `createTransactionInputSchema`: non-empty description, positive amount. -/
def createTransactionInputValid (i : CreateTransactionInput) : Bool :=
  i.description != "" && decide (0 < i.amount)

/-- `updateTransactionInputSchema`: each field optional; when present,
description non-empty and amount positive. -/
def updateTransactionInputValid (i : UpdateTransactionInput) : Bool :=
  (match i.description with | some d => d != "" | none => true) &&
  (match i.amount with | some a => decide (0 < a) | none => true)

/-- `createInventoryItemInputSchema`: non-empty itemName and sku,
non-negative integer quantity, non-negative unitCost, positive
sellingPrice. -/
def createInventoryItemInputValid (i : CreateInventoryItemInput) : Bool :=
  i.itemName != "" && i.sku != "" && decide (0 ≤ i.quantity) &&
  decide (0 ≤ i.unitCost) && decide (0 < i.sellingPrice)

/-- `updateInventoryItemInputSchema`: each field optional; when present,
subject to the same bounds as on create. -/
def updateInventoryItemInputValid (i : UpdateInventoryItemInput) : Bool :=
  (match i.itemName with | some n => n != "" | none => true) &&
  (match i.sku with | some k => k != "" | none => true) &&
  (match i.quantity with | some q => decide (0 ≤ q) | none => true) &&
  (match i.unitCost with | some c => decide (0 ≤ c) | none => true) &&
  (match i.sellingPrice with | some p => decide (0 < p) | none => true)

/-- The `createTransaction` procedure of `appRouter`. -/
def rpcCreateTransaction (s : Store) (i : CreateTransactionInput) :
    Except Err Transaction × Store :=
  if createTransactionInputValid i then createTransaction s i
  else (.error .validationErr, s)

/-- The `updateTransaction` procedure of `appRouter`. -/
def rpcUpdateTransaction (s : Store) (i : UpdateTransactionInput) :
    Except Err Transaction × Store :=
  if updateTransactionInputValid i then updateTransaction s i
  else (.error .validationErr, s)

/-- The `createInventoryItem` procedure of `appRouter`. -/
def rpcCreateInventoryItem (s : Store) (i : CreateInventoryItemInput) :
    Except Err InventoryItem × Store :=
  if createInventoryItemInputValid i then createInventoryItem s i
  else (.error .validationErr, s)

/-- The `updateInventoryItem` procedure of `appRouter`. -/
def rpcUpdateInventoryItem (s : Store) (i : UpdateInventoryItemInput) :
    Except Err InventoryItem × Store :=
  if updateInventoryItemInputValid i then updateInventoryItem s i
  else (.error .validationErr, s)

/-! ### Reachable states -/

/-- The store states reachable from the empty store by any sequence of
create/update/delete requests at the RPC boundary (a rejected or failed
request leaves the store unchanged, so the post-store of every request,
successful or not, is taken). -/
inductive Reachable : Store → Prop where
  | empty : Reachable emptyStore
  | createTx {s} (i : CreateTransactionInput) :
      Reachable s → Reachable (rpcCreateTransaction s i).2
  | updateTx {s} (i : UpdateTransactionInput) :
      Reachable s → Reachable (rpcUpdateTransaction s i).2
  | deleteTx {s} (id : Nat) :
      Reachable s → Reachable (deleteTransaction s id).2
  | createItem {s} (i : CreateInventoryItemInput) :
      Reachable s → Reachable (rpcCreateInventoryItem s i).2
  | updateItem {s} (i : UpdateInventoryItemInput) :
      Reachable s → Reachable (rpcUpdateInventoryItem s i).2
  | deleteItem {s} (id : Nat) :
      Reachable s → Reachable (deleteInventoryItem s id).2

/-- The data invariants of the spec: pairwise-distinct SKUs, positive
transaction amounts and selling prices, non-negative quantities and unit
costs, and updated_at ≥ created_at on every item. -/
def StoreInv (s : Store) : Prop :=
  s.inventoryItems.Pairwise (fun a b => a.sku ≠ b.sku) ∧
  (∀ t ∈ s.transactions, 0 < t.amount) ∧
  (∀ item ∈ s.inventoryItems,
    0 < item.sellingPrice ∧ 0 ≤ item.quantity ∧ 0 ≤ item.unitCost ∧
    item.created_at ≤ item.updated_at)

/-- Bookkeeping facts the database provides and the invariant proof
leans on: generated ids are pairwise distinct and below the serial
counter, and every stored timestamp predates the clock. -/
def StoreAux (s : Store) : Prop :=
  s.inventoryItems.Pairwise (fun a b => a.id ≠ b.id) ∧
  (∀ item ∈ s.inventoryItems,
    item.id < s.nextItemId ∧ item.updated_at < s.clock)

/-! ### Order instances for the list handlers -/

instance : IsTotal Transaction transactionOrder :=
  ⟨fun a b => by unfold transactionOrder; omega⟩

instance : IsTrans Transaction transactionOrder :=
  ⟨fun a b c hab hbc => by
    unfold transactionOrder at hab hbc ⊢; omega⟩

instance : IsTotal InventoryItem itemNameOrder :=
  ⟨fun a b => le_total a.itemName b.itemName⟩

instance : IsTrans InventoryItem itemNameOrder :=
  ⟨fun _ _ _ hab hbc => le_trans hab hbc⟩

/-! ### Concrete stores used by the spec's worked examples -/

/-- The three transactions of the spec's financial-summary example:
2024-01-05 Income 2000.00, 2024-01-10 Expense 800.00, 2024-02-01
Income 999.00 (dates written as yyyymmdd integers). -/
def finExampleStore : Store :=
  { transactions :=
      [ { id := 1, date := 20240105, description := "January sale", amount := 2000,
          type := .Income, category := .Sales, created_at := 0 }
      , { id := 2, date := 20240110, description := "Office rent", amount := 800,
          type := .Expense, category := .Rent, created_at := 1 }
      , { id := 3, date := 20240201, description := "February sale", amount := 999,
          type := .Income, category := .Sales, created_at := 2 } ]
    inventoryItems := []
    nextTransactionId := 4
    nextItemId := 1
    clock := 3 }

/-- First item of the spec's inventory-summary example: qty 20, unitCost 15.50. -/
def invExampleA : InventoryItem :=
  { id := 1, itemName := "Anvil", sku := "SKU-A", quantity := 20, unitCost := 15.5,
    sellingPrice := 25, created_at := 0, updated_at := 0 }

/-- Second item of the spec's inventory-summary example: qty 5, unitCost 10.00. -/
def invExampleB : InventoryItem :=
  { id := 2, itemName := "Bolt", sku := "SKU-B", quantity := 5, unitCost := 10,
    sellingPrice := 12, created_at := 1, updated_at := 1 }

/-- The store of the spec's inventory-summary example. -/
def invExampleStore : Store :=
  { transactions := []
    inventoryItems := [invExampleA, invExampleB]
    nextTransactionId := 1
    nextItemId := 3
    clock := 2 }

/-! ### Helper lemmas -/

/-- A left fold accumulating `+ f x` computes `init` plus the sum of the
mapped list. -/
lemma foldl_add_map_sum {α : Type} (f : α → ℚ) :
    ∀ (l : List α) (init : ℚ),
      l.foldl (fun acc x => acc + f x) init = init + (l.map f).sum
  | [], init => by simp
  | x :: l, init => by
    simp only [List.foldl_cons, List.map_cons, List.sum_cons,
      foldl_add_map_sum f l, add_assoc]

/-! ### C1: financial summary -/

/-- C1: `getFinancialSummary` returns totalIncome equal to the sum of
amount over transactions with type Income and date in `[start, end]`
(both endpoints inclusive), totalExpenses likewise for type Expense,
and netProfit = totalIncome − totalExpenses; when no transaction falls
in the range all three are zero; and on the spec's example store the
summary for `[2024-01-01, 2024-01-31]` is 2000.00 / 800.00 / 1200.00. -/
theorem getFinancialSummary_correct (s : Store) (sd ed : Int) :
    (getFinancialSummary s sd ed).totalIncome =
      ((s.transactions.filter fun t =>
        decide (t.type = .Income ∧ sd ≤ t.date ∧ t.date ≤ ed)).map Transaction.amount).sum ∧
    (getFinancialSummary s sd ed).totalExpenses =
      ((s.transactions.filter fun t =>
        decide (t.type = .Expense ∧ sd ≤ t.date ∧ t.date ≤ ed)).map Transaction.amount).sum ∧
    (getFinancialSummary s sd ed).netProfit =
      (getFinancialSummary s sd ed).totalIncome - (getFinancialSummary s sd ed).totalExpenses ∧
    ((∀ t ∈ s.transactions, ¬(sd ≤ t.date ∧ t.date ≤ ed)) →
      (getFinancialSummary s sd ed).totalIncome = 0 ∧
      (getFinancialSummary s sd ed).totalExpenses = 0 ∧
      (getFinancialSummary s sd ed).netProfit = 0) ∧
    getFinancialSummary finExampleStore 20240101 20240131 =
      { totalIncome := 2000, totalExpenses := 800, netProfit := 1200,
        periodStart := 20240101, periodEnd := 20240131 } := by
  refine ⟨?_, ?_, rfl, ?_, by simp [getFinancialSummary, finExampleStore]; norm_num⟩
  · unfold getFinancialSummary
    simp only [List.filter_filter]
    refine congrArg _ (congrArg _ (List.filter_congr fun t _ => ?_))
    rw [Bool.eq_iff_iff]
    simp only [Bool.and_eq_true, beq_iff_eq, decide_eq_true_eq]

  · unfold getFinancialSummary
    simp only [List.filter_filter]
    refine congrArg _ (congrArg _ (List.filter_congr fun t _ => ?_))
    rw [Bool.eq_iff_iff]
    simp only [Bool.and_eq_true, beq_iff_eq, decide_eq_true_eq]

  · intro h
    have hnil : (s.transactions.filter fun t => sd ≤ t.date && t.date ≤ ed) = [] := by
      rw [List.filter_eq_nil_iff]
      intro t ht
      simp only [Bool.and_eq_true, decide_eq_true_eq]
      exact fun hc => h t ht hc
    unfold getFinancialSummary
    simp [hnil]

/-- Witness for C1: the zero case discharged on a store whose only
transaction is outside the range. -/
theorem getFinancialSummary_correct_witness :
    (getFinancialSummary finExampleStore 20240301 20240331).totalIncome = 0 ∧
    (getFinancialSummary finExampleStore 20240301 20240331).totalExpenses = 0 ∧
    (getFinancialSummary finExampleStore 20240301 20240331).netProfit = 0 :=
  (getFinancialSummary_correct finExampleStore 20240301 20240331).2.2.2.1
    (by decide)

/-! ### C2: inventory summary -/

/-- C2: `getInventorySummary` returns totalItems equal to the number of
items, totalValue equal to the sum of quantity × unitCost over all items,
lowStockItems exactly the items with quantity ≤ threshold (inclusive, so
zero-quantity items qualify), echoes the threshold; and on the spec's
example store with threshold 10, totalValue = 360.00 and lowStockItems
holds only the quantity-5 item. -/
theorem getInventorySummary_correct (s : Store) (thr : Int) :
    (getInventorySummary s thr).totalItems = s.inventoryItems.length ∧
    (getInventorySummary s thr).totalValue =
      (s.inventoryItems.map fun item => (item.quantity : ℚ) * item.unitCost).sum ∧
    (∀ item, item ∈ (getInventorySummary s thr).lowStockItems ↔
      item ∈ s.inventoryItems ∧ item.quantity ≤ thr) ∧
    (getInventorySummary s thr).lowStockThreshold = thr ∧
    ((getInventorySummary invExampleStore 10).totalValue = 360 ∧
      (getInventorySummary invExampleStore 10).lowStockItems = [invExampleB]) := by
  refine ⟨rfl, ?_, ?_, rfl,
    by simp [getInventorySummary, invExampleStore, invExampleA, invExampleB]; norm_num,
    by simp [getInventorySummary, invExampleStore, invExampleA, invExampleB]⟩
  · unfold getInventorySummary
    simpa using foldl_add_map_sum
      (fun item : InventoryItem => (item.quantity : ℚ) * item.unitCost) s.inventoryItems 0
  · intro item
    unfold getInventorySummary
    simp [List.mem_filter]

/-- Witness for C2: the low-stock membership equivalence evaluated on the
example store, in both directions. -/
theorem getInventorySummary_correct_witness :
    invExampleB ∈ (getInventorySummary invExampleStore 10).lowStockItems ∧
    ¬ invExampleA ∈ (getInventorySummary invExampleStore 10).lowStockItems := by
  have h := getInventorySummary_correct invExampleStore 10
  refine ⟨(h.2.2.1 invExampleB).mpr (by decide), fun hmem => ?_⟩
  have := (h.2.2.1 invExampleA).mp hmem
  exact absurd this.2 (by decide)

/-! ### C6: list handlers return sorted listings -/

/-- C6: `getInventoryItems` returns all inventory items (a permutation of
the table) sorted by itemName ascending, and `getTransactions` returns all
transactions sorted by date descending, most recent first. -/
theorem listHandlers_ordered (s : Store) :
    (getTransactions s).Perm s.transactions ∧
    List.Sorted (fun a b : Transaction => b.date ≤ a.date) (getTransactions s) ∧
    (getInventoryItems s).Perm s.inventoryItems ∧
    List.Sorted (fun a b : InventoryItem => a.itemName ≤ b.itemName) (getInventoryItems s) := by
  refine ⟨List.perm_insertionSort _ _, ?_, List.perm_insertionSort _ _, ?_⟩
  · exact (List.sorted_insertionSort transactionOrder s.transactions).imp
      (fun {a b} h => by unfold transactionOrder at h; omega)
  · exact List.sorted_insertionSort itemNameOrder s.inventoryItems

/-! ### C8, C10: delete handlers -/

/-- C8: each delete fails with NotFound exactly when no record with the
id exists; otherwise it returns a success indicator and removes exactly
the record with that id (every record with a different id is kept);
consequently deleting the same id twice succeeds the first time and fails
with NotFound the second time. -/
theorem delete_correct (s : Store) (id : Nat) :
    ((deleteTransaction s id).1 = .error .notFound ↔ ∀ t ∈ s.transactions, t.id ≠ id) ∧
    ((∃ t ∈ s.transactions, t.id = id) →
      (deleteTransaction s id).1 = .ok { success := true } ∧
      (∀ t, t ∈ (deleteTransaction s id).2.transactions ↔
        t ∈ s.transactions ∧ t.id ≠ id) ∧
      (deleteTransaction (deleteTransaction s id).2 id).1 = .error .notFound) ∧
    ((deleteInventoryItem s id).1 = .error .notFound ↔
      ∀ item ∈ s.inventoryItems, item.id ≠ id) ∧
    ((∃ item ∈ s.inventoryItems, item.id = id) →
      (deleteInventoryItem s id).1 = .ok { success := true } ∧
      (∀ item, item ∈ (deleteInventoryItem s id).2.inventoryItems ↔
        item ∈ s.inventoryItems ∧ item.id ≠ id) ∧
      (deleteInventoryItem (deleteInventoryItem s id).2 id).1 = .error .notFound) := by
  constructor
  · by_cases h : s.transactions.any fun t => t.id == id
    · simp only [deleteTransaction, h, if_true]
      simp only [List.any_eq_true, beq_iff_eq] at h
      constructor
      · intro hcontra
        exact absurd hcontra (by simp)
      · intro hall
        obtain ⟨t, ht, hid⟩ := h
        exact absurd hid (hall t ht)
    · simp only [deleteTransaction, h, if_false]
      simp only [List.any_eq_true, beq_iff_eq, not_exists] at h
      simpa using fun t ht => by
        intro hc
        exact h t ⟨ht, hc⟩
  constructor
  · intro hex
    have h : (s.transactions.any fun t => t.id == id) = true := by
      simp only [List.any_eq_true, beq_iff_eq]
      exact hex
    refine ⟨by simp [deleteTransaction, h], ?_, ?_⟩
    · intro t
      simp [deleteTransaction, h, List.mem_filter]
    · have h2 : ((s.transactions.filter fun t => !(t.id == id)).any
          fun t => t.id == id) = false := by
        rw [List.any_eq_false]
        intro t ht
        rw [List.mem_filter] at ht
        simpa using ht.2
      simp [deleteTransaction, h, h2]
  constructor
  · by_cases h : s.inventoryItems.any fun item => item.id == id
    · simp only [deleteInventoryItem, h, if_true]
      simp only [List.any_eq_true, beq_iff_eq] at h
      constructor
      · intro hcontra
        exact absurd hcontra (by simp)
      · intro hall
        obtain ⟨item, hitem, hid⟩ := h
        exact absurd hid (hall item hitem)
    · simp only [deleteInventoryItem, h, if_false]
      simp only [List.any_eq_true, beq_iff_eq, not_exists] at h
      simpa using fun item hitem => by
        intro hc
        exact h item ⟨hitem, hc⟩
  · intro hex
    have h : (s.inventoryItems.any fun item => item.id == id) = true := by
      simp only [List.any_eq_true, beq_iff_eq]
      exact hex
    refine ⟨by simp [deleteInventoryItem, h], ?_, ?_⟩
    · intro item
      simp [deleteInventoryItem, h, List.mem_filter]
    · have h2 : ((s.inventoryItems.filter fun item => !(item.id == id)).any
          fun item => item.id == id) = false := by
        rw [List.any_eq_false]
        intro item hitem
        rw [List.mem_filter] at hitem
        simpa using hitem.2
      simp [deleteInventoryItem, h, h2]

/-- Witness for C8: double deletion of item id 2 on the example store —
the first delete succeeds, the second fails with NotFound. -/
theorem delete_correct_witness :
    (deleteInventoryItem invExampleStore 2).1 = .ok { success := true } ∧
    (deleteInventoryItem (deleteInventoryItem invExampleStore 2).2 2).1 =
      .error .notFound := by
  have h := (delete_correct invExampleStore 2).2.2.2
    ⟨invExampleB, by simp [invExampleStore], rfl⟩
  exact ⟨h.1, h.2.2⟩

/-- C10: whenever a delete handler returns normally, the returned payload
is exactly `{ success := true }`; no code path returns `success := false`. -/
theorem delete_success_always_true (s : Store) (id : Nat) (r : DeleteResult) :
    ((deleteTransaction s id).1 = .ok r → r = { success := true }) ∧
    ((deleteInventoryItem s id).1 = .ok r → r = { success := true }) := by
  constructor
  · intro h
    unfold deleteTransaction at h
    by_cases hc : s.transactions.any fun t => t.id == id
    · simp only [hc, if_true, Except.ok.injEq] at h
      exact h.symm
    · simp [hc] at h
  · intro h
    unfold deleteInventoryItem at h
    by_cases hc : s.inventoryItems.any fun item => item.id == id
    · simp only [hc, if_true, Except.ok.injEq] at h
      exact h.symm
    · simp [hc] at h

/-- Witness for C10: the successful delete of item id 1 on the example
store indeed returns `{ success := true }`. -/
theorem delete_success_always_true_witness :
    (deleteInventoryItem invExampleStore 1).1 = .ok { success := true } ∧
    ({ success := true } : DeleteResult) = { success := true } :=
  ⟨rfl, (delete_success_always_true invExampleStore 1 { success := true }).2 rfl⟩

/-! ### C3: createInventoryItem and duplicate SKUs -/

/-- C3: creating an item whose SKU matches an existing item's fails with
a Conflict error and leaves the store unchanged (so a listing afterwards
shows no new record); creating with a SKU distinct from every existing
item's succeeds and persists the new item. -/
theorem createInventoryItem_sku (s : Store) (i : CreateInventoryItemInput) :
    ((∃ item ∈ s.inventoryItems, item.sku = i.sku) →
      createInventoryItem s i = (.error .conflict, s) ∧
      getInventoryItems (createInventoryItem s i).2 = getInventoryItems s) ∧
    ((∀ item ∈ s.inventoryItems, item.sku ≠ i.sku) →
      ∃ item,
        createInventoryItem s i =
          (.ok item,
            { s with
              inventoryItems := s.inventoryItems ++ [item]
              nextItemId := s.nextItemId + 1
              clock := s.clock + 1 }) ∧
        item.itemName = i.itemName ∧ item.sku = i.sku ∧
        item.quantity = i.quantity ∧ item.unitCost = i.unitCost ∧
        item.sellingPrice = i.sellingPrice ∧
        item ∈ (createInventoryItem s i).2.inventoryItems) := by
  constructor
  · intro hex
    have h : (s.inventoryItems.any fun item => item.sku == i.sku) = true := by
      simp only [List.any_eq_true, beq_iff_eq]
      exact hex
    constructor
    · simp [createInventoryItem, h]
    · simp [createInventoryItem, h]
  · intro hall
    have h : (s.inventoryItems.any fun item => item.sku == i.sku) = false := by
      rw [List.any_eq_false]
      intro item hitem
      simpa using hall item hitem
    have heq : createInventoryItem s i =
        (.ok
          { id := s.nextItemId, itemName := i.itemName, sku := i.sku,
            quantity := i.quantity, unitCost := i.unitCost,
            sellingPrice := i.sellingPrice, created_at := s.clock,
            updated_at := s.clock },
          { s with
            inventoryItems := s.inventoryItems ++
              [{ id := s.nextItemId, itemName := i.itemName, sku := i.sku,
                 quantity := i.quantity, unitCost := i.unitCost,
                 sellingPrice := i.sellingPrice, created_at := s.clock,
                 updated_at := s.clock }]
            nextItemId := s.nextItemId + 1
            clock := s.clock + 1 }) := by
      simp [createInventoryItem, h]
    exact ⟨_, heq, rfl, rfl, rfl, rfl, rfl, by rw [heq]; simp⟩

/-- Witness for C3: on the example store, creating SKU-A again fails with
Conflict and listing is unchanged, while creating SKU-C succeeds. -/
theorem createInventoryItem_sku_witness :
    (createInventoryItem invExampleStore
        { itemName := "Anvil II", sku := "SKU-A", quantity := 3,
          unitCost := 1, sellingPrice := 2 } =
      (.error .conflict, invExampleStore)) ∧
    (∃ item,
      createInventoryItem invExampleStore
          { itemName := "Crate", sku := "SKU-C", quantity := 7,
            unitCost := 1, sellingPrice := 2 } =
        (.ok item,
          { invExampleStore with
            inventoryItems := invExampleStore.inventoryItems ++ [item]
            nextItemId := invExampleStore.nextItemId + 1
            clock := invExampleStore.clock + 1 })) := by
  constructor
  · exact (createInventoryItem_sku invExampleStore
      { itemName := "Anvil II", sku := "SKU-A", quantity := 3,
        unitCost := 1, sellingPrice := 2 }).1
      ⟨invExampleA, by simp [invExampleStore], rfl⟩ |>.1
  · obtain ⟨item, heq, -⟩ := (createInventoryItem_sku invExampleStore
      { itemName := "Crate", sku := "SKU-C", quantity := 7,
        unitCost := 1, sellingPrice := 2 }).2
      (by decide)
    exact ⟨item, heq⟩

/-! ### C4: update error conditions -/

/-- C4: `updateTransaction` and `updateInventoryItem` fail with NotFound
when no record matches the id; `updateInventoryItem` fails with Conflict
when the supplied SKU belongs to a different existing item; supplying an
item's own current SKU is no conflict and the update succeeds. (A SKU
that passes the boundary validation is non-empty.) -/
theorem update_errors (s : Store) (ti : UpdateTransactionInput)
    (ii : UpdateInventoryItemInput) :
    ((∀ t ∈ s.transactions, t.id ≠ ti.id) →
      updateTransaction s ti = (.error .notFound, s)) ∧
    ((∀ item ∈ s.inventoryItems, item.id ≠ ii.id) →
      updateInventoryItem s ii = (.error .notFound, s)) ∧
    (∀ k, ii.sku = some k → k ≠ "" →
      (∃ item ∈ s.inventoryItems, item.id = ii.id) →
      (∃ other ∈ s.inventoryItems, other.id ≠ ii.id ∧ other.sku = k) →
      updateInventoryItem s ii = (.error .conflict, s)) ∧
    (∀ item ∈ s.inventoryItems, item.id = ii.id → ii.sku = some item.sku →
      item.sku ≠ "" →
      (∀ other ∈ s.inventoryItems, other.id ≠ ii.id → other.sku ≠ item.sku) →
      ∃ r s', updateInventoryItem s ii = (.ok r, s')) := by
  refine ⟨?_, ?_, ?_, ?_⟩
  · intro hall
    have h : s.transactions.find? (fun t => t.id == ti.id) = none := by
      rw [List.find?_eq_none]
      intro t ht
      simpa using hall t ht
    simp [updateTransaction, h]
  · intro hall
    have h : s.inventoryItems.find? (fun item => item.id == ii.id) = none := by
      rw [List.find?_eq_none]
      intro item hitem
      simpa using hall item hitem
    simp [updateInventoryItem, h]
  · intro k hk hne hex hother
    obtain ⟨witem, hwmem, hwid⟩ := hex
    obtain ⟨item0, hfind⟩ : ∃ item0,
        s.inventoryItems.find? (fun item => item.id == ii.id) = some item0 := by
      rcases hfound : s.inventoryItems.find? (fun item => item.id == ii.id) with
        _ | item0
      · rw [List.find?_eq_none] at hfound
        exact absurd (by simpa using hwid) (hfound witem hwmem)
      · exact ⟨item0, hfound⟩
    have hconf : (match ii.sku with
        | some k => k != "" && s.inventoryItems.any fun item =>
            item.sku == k && !(item.id == ii.id)
        | none => false) = true := by
      rw [hk]
      simp only [Bool.and_eq_true, bne_iff_ne, ne_eq, List.any_eq_true]
      refine ⟨hne, ?_⟩
      obtain ⟨other, homem, hoid, hosku⟩ := hother
      exact ⟨other, homem, by simp [hosku, hoid]⟩
    simp [updateInventoryItem, hfind, hconf]
  · intro item hitem hid hk hne hall
    obtain ⟨item0, hfind⟩ : ∃ item0,
        s.inventoryItems.find? (fun it => it.id == ii.id) = some item0 := by
      rcases hfound : s.inventoryItems.find? (fun it => it.id == ii.id) with
        _ | item0
      · rw [List.find?_eq_none] at hfound
        exact absurd (by simpa using hid) (hfound item hitem)
      · exact ⟨item0, hfound⟩
    have hconf : (match ii.sku with
        | some k => k != "" && s.inventoryItems.any fun it =>
            it.sku == k && !(it.id == ii.id)
        | none => false) = false := by
      rw [hk]
      simp only [Bool.and_eq_false_iff]
      right
      rw [List.any_eq_false]
      intro other homem
      simp only [Bool.and_eq_true, beq_iff_eq, Bool.not_eq_true', beq_eq_false_iff_ne,
        ne_eq, not_and]
      intro hsku hne2
      exact absurd hsku (hall other homem hne2)
    have heq : updateInventoryItem s ii =
        (.ok (applyItemUpdate item0 ii s.clock),
          { s with
            inventoryItems := s.inventoryItems.map fun it =>
              if it.id == ii.id then applyItemUpdate it ii s.clock else it
            clock := s.clock + 1 }) := by
      simp [updateInventoryItem, hfind, hconf]
    exact ⟨_, _, heq⟩

/-- Witness for C4: NotFound on a missing transaction id and a missing
item id, Conflict when moving item 2 onto SKU-A, and success when item 2
re-supplies its own SKU-B. -/
theorem update_errors_witness :
    updateTransaction invExampleStore
        { id := 9, date := none, description := none, amount := none,
          type := none, category := none } =
      (.error .notFound, invExampleStore) ∧
    updateInventoryItem invExampleStore
        { id := 9, itemName := none, sku := none, quantity := none,
          unitCost := none, sellingPrice := none } =
      (.error .notFound, invExampleStore) ∧
    updateInventoryItem invExampleStore
        { id := 2, itemName := none, sku := some "SKU-A", quantity := none,
          unitCost := none, sellingPrice := none } =
      (.error .conflict, invExampleStore) ∧
    (∃ r s', updateInventoryItem invExampleStore
        { id := 2, itemName := none, sku := some "SKU-B", quantity := none,
          unitCost := none, sellingPrice := none } = (.ok r, s')) := by
  refine ⟨?_, ?_, ?_, ?_⟩
  · exact (update_errors invExampleStore
      { id := 9, date := none, description := none, amount := none,
        type := none, category := none }
      { id := 9, itemName := none, sku := none, quantity := none,
        unitCost := none, sellingPrice := none }).1 (by decide)
  · exact (update_errors invExampleStore
      { id := 9, date := none, description := none, amount := none,
        type := none, category := none }
      { id := 9, itemName := none, sku := none, quantity := none,
        unitCost := none, sellingPrice := none }).2.1 (by decide)
  · exact (update_errors invExampleStore
      { id := 9, date := none, description := none, amount := none,
        type := none, category := none }
      { id := 2, itemName := none, sku := some "SKU-A", quantity := none,
        unitCost := none, sellingPrice := none }).2.2.1 "SKU-A" rfl
      (by decide) ⟨invExampleB, by simp [invExampleStore], rfl⟩
      ⟨invExampleA, by simp [invExampleStore], by decide, rfl⟩
  · exact (update_errors invExampleStore
      { id := 9, date := none, description := none, amount := none,
        type := none, category := none }
      { id := 2, itemName := none, sku := some "SKU-B", quantity := none,
        unitCost := none, sellingPrice := none }).2.2.2 invExampleB
      (by simp [invExampleStore]) rfl rfl (by decide) (by decide)

/-! ### C7: updateInventoryItem frame conditions -/

/-- C7: a successful `updateInventoryItem` on the item found by id
changes exactly the fields present in the input plus `updated_at`: each
absent field keeps its prior value, each present field takes the supplied
value, `updated_at` is set to the current time on every update (an empty
partial field set included), `id` and `created_at` are never changed, and
every record with a different id is carried over untouched. -/
theorem updateInventoryItem_frame (s : Store) (i : UpdateInventoryItemInput)
    (item : InventoryItem) (r : InventoryItem) (s' : Store)
    (hfind : s.inventoryItems.find? (fun it => it.id == i.id) = some item)
    (hok : updateInventoryItem s i = (.ok r, s')) :
    r.id = item.id ∧ r.created_at = item.created_at ∧
    r.updated_at = s.clock ∧
    r.itemName = i.itemName.getD item.itemName ∧
    r.sku = i.sku.getD item.sku ∧
    r.quantity = i.quantity.getD item.quantity ∧
    r.unitCost = i.unitCost.getD item.unitCost ∧
    r.sellingPrice = i.sellingPrice.getD item.sellingPrice ∧
    s'.clock = s.clock + 1 ∧
    (∀ u ∈ s.inventoryItems, u.id ≠ i.id → u ∈ s'.inventoryItems) ∧
    s'.inventoryItems = s.inventoryItems.map fun it =>
      if it.id == i.id then applyItemUpdate it i s.clock else it := by
  by_cases hconf : (match i.sku with
      | some k => k != "" && s.inventoryItems.any fun it =>
          it.sku == k && !(it.id == i.id)
      | none => false) = true
  · have herr : updateInventoryItem s i = (.error .conflict, s) := by
      simp [updateInventoryItem, hfind, hconf]
    rw [herr] at hok
    exact absurd (congrArg Prod.fst hok) (by simp)
  · rw [Bool.not_eq_true] at hconf
    have heq : updateInventoryItem s i =
        (.ok (applyItemUpdate item i s.clock),
          { s with
            inventoryItems := s.inventoryItems.map fun it =>
              if it.id == i.id then applyItemUpdate it i s.clock else it
            clock := s.clock + 1 }) := by
      simp [updateInventoryItem, hfind, hconf]
    rw [heq, Prod.mk.injEq, Except.ok.injEq] at hok
    obtain ⟨h1, h2⟩ := hok
    subst h1
    subst h2
    refine ⟨rfl, rfl, rfl, rfl, rfl, rfl, rfl, rfl, rfl, ?_, rfl⟩
    intro u hu hne
    simp only [List.mem_map]
    exact ⟨u, hu, by simp [hne]⟩

/-- Witness for C7: updating only the name of item 2 in the example store
keeps id, created_at and the other fields, and bumps updated_at to the
store clock. -/
theorem updateInventoryItem_frame_witness :
    ∃ r s', updateInventoryItem invExampleStore
        { id := 2, itemName := some "Bolt XL", sku := none, quantity := none,
          unitCost := none, sellingPrice := none } = (.ok r, s') ∧
      r.id = 2 ∧ r.created_at = 1 ∧ r.updated_at = 2 ∧
      r.itemName = "Bolt XL" ∧ r.sku = "SKU-B" ∧ r.quantity = 5 := by
  have h := updateInventoryItem_frame invExampleStore
    { id := 2, itemName := some "Bolt XL", sku := none, quantity := none,
      unitCost := none, sellingPrice := none }
    invExampleB _ _ rfl rfl
  exact ⟨_, _, rfl, h.1, h.2.1, h.2.2.1, h.2.2.2.1, h.2.2.2.2.1,
    h.2.2.2.2.2.1⟩

/-! ### C9: RPC-boundary validation -/

/-- C9: a create or update request whose input is malformed or out of
range (non-positive transaction amount, empty description, empty itemName
or sku, negative quantity, negative unitCost, or non-positive
sellingPrice) fails with a ValidationError at the RPC boundary, before
any store access, leaving the store unchanged. -/
theorem rpcValidation_rejects (s : Store) (ct : CreateTransactionInput)
    (ut : UpdateTransactionInput) (ci : CreateInventoryItemInput)
    (ui : UpdateInventoryItemInput) :
    ((ct.amount ≤ 0 ∨ ct.description = "") →
      rpcCreateTransaction s ct = (.error .validationErr, s)) ∧
    (((∃ a, ut.amount = some a ∧ a ≤ 0) ∨ ut.description = some "") →
      rpcUpdateTransaction s ut = (.error .validationErr, s)) ∧
    ((ci.itemName = "" ∨ ci.sku = "" ∨ ci.quantity < 0 ∨ ci.unitCost < 0 ∨
        ci.sellingPrice ≤ 0) →
      rpcCreateInventoryItem s ci = (.error .validationErr, s)) ∧
    ((ui.itemName = some "" ∨ ui.sku = some "" ∨
        (∃ q, ui.quantity = some q ∧ q < 0) ∨
        (∃ c, ui.unitCost = some c ∧ c < 0) ∨
        (∃ p, ui.sellingPrice = some p ∧ p ≤ 0)) →
      rpcUpdateInventoryItem s ui = (.error .validationErr, s)) := by
  refine ⟨?_, ?_, ?_, ?_⟩
  · intro hbad
    have hv : createTransactionInputValid ct = false := by
      unfold createTransactionInputValid
      rcases hbad with hbad | hbad
      · simp [not_lt.mpr hbad]
      · simp [hbad]
    simp [rpcCreateTransaction, hv]
  · intro hbad
    have hv : updateTransactionInputValid ut = false := by
      unfold updateTransactionInputValid
      rcases hbad with ⟨a, ha, hle⟩ | hbad
      · rw [ha]
        simp [not_lt.mpr hle]
      · rw [hbad]
        simp
    simp [rpcUpdateTransaction, hv]
  · intro hbad
    have hv : createInventoryItemInputValid ci = false := by
      unfold createInventoryItemInputValid
      rcases hbad with hbad | hbad | hbad | hbad | hbad
      · simp [hbad]
      · simp [hbad]
      · simp [not_le.mpr hbad]
      · simp [not_le.mpr hbad]
      · simp [not_lt.mpr hbad]
    simp [rpcCreateInventoryItem, hv]
  · intro hbad
    have hv : updateInventoryItemInputValid ui = false := by
      unfold updateInventoryItemInputValid
      rcases hbad with hbad | hbad | ⟨q, hq, hlt⟩ | ⟨c, hc, hlt⟩ | ⟨p, hp, hle⟩
      · rw [hbad]
        simp
      · rw [hbad]
        simp
      · rw [hq]
        simp [not_le.mpr hlt]
      · rw [hc]
        simp [not_le.mpr hlt]
      · rw [hp]
        simp [not_lt.mpr hle]
    simp [rpcUpdateInventoryItem, hv]

/-- Witness for C9: four malformed requests against the empty store — a
zero-amount transaction create, an empty-description transaction update,
a negative-quantity item create, and a non-positive-sellingPrice item
update — are all rejected with ValidationError, store unchanged. -/
theorem rpcValidation_rejects_witness :
    rpcCreateTransaction emptyStore
        { date := 0, description := "Sale", amount := 0, type := .Income,
          category := .Sales } = (.error .validationErr, emptyStore) ∧
    rpcUpdateTransaction emptyStore
        { id := 1, date := none, description := some "", amount := none,
          type := none, category := none } =
      (.error .validationErr, emptyStore) ∧
    rpcCreateInventoryItem emptyStore
        { itemName := "Anvil", sku := "SKU-A", quantity := -1, unitCost := 1,
          sellingPrice := 2 } = (.error .validationErr, emptyStore) ∧
    rpcUpdateInventoryItem emptyStore
        { id := 1, itemName := none, sku := none, quantity := none,
          unitCost := none, sellingPrice := some 0 } =
      (.error .validationErr, emptyStore) := by
  have h := rpcValidation_rejects emptyStore
    { date := 0, description := "Sale", amount := 0, type := .Income,
      category := .Sales }
    { id := 1, date := none, description := some "", amount := none,
      type := none, category := none }
    { itemName := "Anvil", sku := "SKU-A", quantity := -1, unitCost := 1,
      sellingPrice := 2 }
    { id := 1, itemName := none, sku := none, quantity := none,
      unitCost := none, sellingPrice := some 0 }
  exact ⟨h.1 (Or.inl le_rfl), h.2.1 (Or.inr rfl),
    h.2.2.1 (Or.inr (Or.inr (Or.inl (by norm_num)))),
    h.2.2.2 (Or.inr (Or.inr (Or.inr (Or.inr ⟨0, rfl, le_rfl⟩))))⟩

/-! ### C5: invariant preservation, operation by operation -/

/-- A validated transaction create preserves the invariants. -/
lemma inv_rpcCreateTransaction (s : Store) (i : CreateTransactionInput)
    (h : StoreInv s ∧ StoreAux s) :
    StoreInv (rpcCreateTransaction s i).2 ∧ StoreAux (rpcCreateTransaction s i).2 := by
  obtain ⟨⟨hsku, htx, hitem⟩, hids, hbounds⟩ := h
  unfold rpcCreateTransaction
  by_cases hv : createTransactionInputValid i = true
  · rw [if_pos hv]
    simp only [createTransactionInputValid, Bool.and_eq_true, bne_iff_ne, ne_eq,
      decide_eq_true_eq] at hv
    unfold createTransaction
    refine ⟨⟨hsku, ?_, hitem⟩, hids, ?_⟩
    · intro t ht
      rcases List.mem_append.mp ht with ht | ht
      · exact htx t ht
      · rw [List.mem_singleton] at ht
        subst ht
        exact hv.2
    · intro item hmem
      obtain ⟨h1, h2⟩ := hbounds item hmem
      refine ⟨h1, ?_⟩
      show item.updated_at < s.clock + 1
      omega
  · rw [if_neg hv]
    exact ⟨⟨hsku, htx, hitem⟩, hids, hbounds⟩

/-- A validated transaction update preserves the invariants. -/
lemma inv_rpcUpdateTransaction (s : Store) (i : UpdateTransactionInput)
    (h : StoreInv s ∧ StoreAux s) :
    StoreInv (rpcUpdateTransaction s i).2 ∧ StoreAux (rpcUpdateTransaction s i).2 := by
  obtain ⟨⟨hsku, htx, hitem⟩, hids, hbounds⟩ := h
  unfold rpcUpdateTransaction
  by_cases hv : updateTransactionInputValid i = true
  · rw [if_pos hv]
    unfold updateTransaction
    rcases hfind : s.transactions.find? (fun t => t.id == i.id) with _ | t0
    · rw [hfind]
      exact ⟨⟨hsku, htx, hitem⟩, hids, hbounds⟩
    · rw [hfind]
      refine ⟨⟨hsku, ?_, hitem⟩, hids, ?_⟩
      · intro t ht
        rw [List.mem_map] at ht
        obtain ⟨u, hu, hut⟩ := ht
        subst hut
        by_cases hb : (u.id == i.id) = true
        · rw [if_pos hb]
          unfold applyTransactionUpdate
          rcases hamt : i.amount with _ | a
          · simpa using htx u hu
          · simp only [updateTransactionInputValid, hamt, Bool.and_eq_true,
              decide_eq_true_eq] at hv
            simpa using hv.2
        · rw [if_neg hb]
          exact htx u hu
      · intro item hmem
        obtain ⟨h1, h2⟩ := hbounds item hmem
        refine ⟨h1, ?_⟩
        show item.updated_at < s.clock + 1
        omega
  · rw [if_neg hv]
    exact ⟨⟨hsku, htx, hitem⟩, hids, hbounds⟩

/-- A transaction delete preserves the invariants. -/
lemma inv_deleteTransaction (s : Store) (id : Nat)
    (h : StoreInv s ∧ StoreAux s) :
    StoreInv (deleteTransaction s id).2 ∧ StoreAux (deleteTransaction s id).2 := by
  obtain ⟨⟨hsku, htx, hitem⟩, hids, hbounds⟩ := h
  unfold deleteTransaction
  by_cases hc : (s.transactions.any fun t => t.id == id) = true
  · rw [if_pos hc]
    refine ⟨⟨hsku, ?_, hitem⟩, hids, ?_⟩
    · intro t ht
      exact htx t (List.mem_of_mem_filter ht)
    · intro item hmem
      obtain ⟨h1, h2⟩ := hbounds item hmem
      refine ⟨h1, ?_⟩
      show item.updated_at < s.clock + 1
      omega
  · rw [if_neg hc]
    exact ⟨⟨hsku, htx, hitem⟩, hids, hbounds⟩

/-- A validated inventory create preserves the invariants. -/
lemma inv_rpcCreateInventoryItem (s : Store) (i : CreateInventoryItemInput)
    (h : StoreInv s ∧ StoreAux s) :
    StoreInv (rpcCreateInventoryItem s i).2 ∧ StoreAux (rpcCreateInventoryItem s i).2 := by
  obtain ⟨⟨hsku, htx, hitem⟩, hids, hbounds⟩ := h
  unfold rpcCreateInventoryItem
  by_cases hv : createInventoryItemInputValid i = true
  · rw [if_pos hv]
    simp only [createInventoryItemInputValid, Bool.and_eq_true, bne_iff_ne, ne_eq,
      decide_eq_true_eq] at hv
    unfold createInventoryItem
    by_cases hc : (s.inventoryItems.any fun item => item.sku == i.sku) = true
    · rw [if_pos hc]
      exact ⟨⟨hsku, htx, hitem⟩, hids, hbounds⟩
    · rw [if_neg hc]
      rw [Bool.not_eq_true, List.any_eq_false] at hc
      refine ⟨⟨?_, htx, ?_⟩, ?_, ?_⟩
      · rw [List.pairwise_append]
        refine ⟨hsku, List.pairwise_singleton .., fun a ha b hb => ?_⟩
        rw [List.mem_singleton] at hb
        subst hb
        have := hc a ha
        simpa using this
      · intro item hmem
        rcases List.mem_append.mp hmem with hm | hm
        · obtain ⟨p1, p2, p3, p4⟩ := hitem item hm
          refine ⟨p1, p2, p3, ?_⟩
          show item.created_at ≤ item.updated_at
          exact p4
        · rw [List.mem_singleton] at hm
          subst hm
          exact ⟨hv.2, hv.1.1.2, hv.1.2, le_refl _⟩
      · rw [List.pairwise_append]
        refine ⟨hids, List.pairwise_singleton .., fun a ha b hb => ?_⟩
        rw [List.mem_singleton] at hb
        subst hb
        have := (hbounds a ha).1
        show a.id ≠ s.nextItemId
        omega
      · intro item hmem
        rcases List.mem_append.mp hmem with hm | hm
        · obtain ⟨h1, h2⟩ := hbounds item hm
          refine ⟨?_, ?_⟩
          · show item.id < s.nextItemId + 1
            omega
          · show item.updated_at < s.clock + 1
            omega
        · rw [List.mem_singleton] at hm
          subst hm
          refine ⟨?_, ?_⟩
          · show s.nextItemId < s.nextItemId + 1
            omega
          · show s.clock < s.clock + 1
            omega
  · rw [if_neg hv]
    exact ⟨⟨hsku, htx, hitem⟩, hids, hbounds⟩

/-- A validated inventory update preserves the invariants. -/
lemma inv_rpcUpdateInventoryItem (s : Store) (i : UpdateInventoryItemInput)
    (h : StoreInv s ∧ StoreAux s) :
    StoreInv (rpcUpdateInventoryItem s i).2 ∧ StoreAux (rpcUpdateInventoryItem s i).2 := by
  obtain ⟨⟨hsku, htx, hitem⟩, hids, hbounds⟩ := h
  unfold rpcUpdateInventoryItem
  by_cases hv : updateInventoryItemInputValid i = true
  case neg =>
    rw [if_neg hv]
    exact ⟨⟨hsku, htx, hitem⟩, hids, hbounds⟩
  rw [if_pos hv]
  simp only [updateInventoryItemInputValid, Bool.and_eq_true, bne_iff_ne, ne_eq] at hv
  unfold updateInventoryItem
  rcases hfind : s.inventoryItems.find? (fun item => item.id == i.id) with _ | item0
  · rw [hfind]
    exact ⟨⟨hsku, htx, hitem⟩, hids, hbounds⟩
  simp only [hfind]
  by_cases hconf : (match i.sku with
      | some k => k != "" && s.inventoryItems.any fun item =>
          item.sku == k && !(item.id == i.id)
      | none => false) = true
  · rw [if_pos hconf]
    exact ⟨⟨hsku, htx, hitem⟩, hids, hbounds⟩
  rw [if_neg hconf]
  have hnoconf : ∀ k, i.sku = some k →
      ∀ item ∈ s.inventoryItems, item.sku = k → item.id = i.id := by
    intro k hk item hmem hksku
    rw [hk] at hconf
    rw [Bool.not_eq_true, Bool.and_eq_false_iff] at hconf
    rcases hconf with hconf | hconf
    · exfalso
      have hkne : k ≠ "" := by
        have := hv.1.1.1.2
        rw [hk] at this
        simpa using this
      simp [hkne] at hconf
    · rw [List.any_eq_false] at hconf
      have := hconf item hmem
      simp only [Bool.and_eq_true, beq_iff_eq, Bool.not_eq_true', beq_eq_false_iff_ne,
        ne_eq, not_and] at this
      by_contra hne
      exact (this hksku) (by simpa using hne)
  refine ⟨⟨?_, htx, ?_⟩, ?_, ?_⟩
  · show (s.inventoryItems.map fun item =>
      if item.id == i.id then applyItemUpdate item i s.clock else item).Pairwise
        fun a b => a.sku ≠ b.sku
    rw [List.pairwise_map]
    have H := List.Pairwise.and_mem.mp (hsku.and hids)
    refine H.imp ?_
    intro a b hab
    obtain ⟨hamem, hbmem, hskuab, hidab⟩ := hab
    rcases hsk : i.sku with _ | k
    · by_cases ha : (a.id == i.id) = true <;> by_cases hb : (b.id == i.id) = true <;>
        simp [ha, hb, applyItemUpdate, hsk, hskuab]
    · by_cases ha : (a.id == i.id) = true <;> by_cases hb : (b.id == i.id) = true
      · exfalso
        rw [beq_iff_eq] at ha hb
        exact hidab (ha.trans hb.symm)
      · rw [if_pos ha, if_neg hb]
        simp only [applyItemUpdate, hsk, Option.getD_some]
        intro hcontra
        have hbid := hnoconf k hsk b hbmem hcontra.symm
        rw [beq_iff_eq] at hb
        exact hb hbid
      · rw [if_neg ha, if_pos hb]
        simp only [applyItemUpdate, hsk, Option.getD_some]
        intro hcontra
        have haid := hnoconf k hsk a hamem hcontra
        rw [beq_iff_eq] at ha
        exact ha haid
      · rw [if_neg ha, if_neg hb]
        exact hskuab
  · show ∀ item ∈ (s.inventoryItems.map fun item =>
        if item.id == i.id then applyItemUpdate item i s.clock else item),
      0 < item.sellingPrice ∧ 0 ≤ item.quantity ∧ 0 ≤ item.unitCost ∧
        item.created_at ≤ item.updated_at
    intro item hmem
    rw [List.mem_map] at hmem
    obtain ⟨u, hu, hueq⟩ := hmem
    subst hueq
    by_cases hbu : (u.id == i.id) = true
    · rw [if_pos hbu]
      obtain ⟨p1, p2, p3, p4⟩ := hitem u hu
      obtain ⟨b1, b2⟩ := hbounds u hu
      refine ⟨?_, ?_, ?_, ?_⟩
      · show 0 < i.sellingPrice.getD u.sellingPrice
        rcases hsp : i.sellingPrice with _ | p
        · simpa using p1
        · have := hv.2
          rw [hsp] at this
          simpa using this
      · show 0 ≤ i.quantity.getD u.quantity
        rcases hq : i.quantity with _ | q
        · simpa using p2
        · have := hv.1.1.2
          rw [hq] at this
          simpa using this
      · show 0 ≤ i.unitCost.getD u.unitCost
        rcases hcst : i.unitCost with _ | c
        · simpa using p3
        · have := hv.1.2
          rw [hcst] at this
          simpa using this
      · show u.created_at ≤ s.clock
        omega
    · rw [if_neg hbu]
      exact hitem u hu
  · show (s.inventoryItems.map fun item =>
      if item.id == i.id then applyItemUpdate item i s.clock else item).Pairwise
        fun a b => a.id ≠ b.id
    rw [List.pairwise_map]
    refine hids.imp ?_
    intro a b hab
    split_ifs <;> simpa [applyItemUpdate] using hab
  · show ∀ item ∈ (s.inventoryItems.map fun item =>
        if item.id == i.id then applyItemUpdate item i s.clock else item),
      item.id < s.nextItemId ∧ item.updated_at < s.clock + 1
    intro item hmem
    rw [List.mem_map] at hmem
    obtain ⟨u, hu, hueq⟩ := hmem
    subst hueq
    obtain ⟨b1, b2⟩ := hbounds u hu
    by_cases hbu : (u.id == i.id) = true
    · rw [if_pos hbu]
      constructor
      · show u.id < s.nextItemId
        exact b1
      · show s.clock < s.clock + 1
        omega
    · rw [if_neg hbu]
      exact ⟨b1, by omega⟩

/-- An inventory delete preserves the invariants. -/
lemma inv_deleteInventoryItem (s : Store) (id : Nat)
    (h : StoreInv s ∧ StoreAux s) :
    StoreInv (deleteInventoryItem s id).2 ∧ StoreAux (deleteInventoryItem s id).2 := by
  obtain ⟨⟨hsku, htx, hitem⟩, hids, hbounds⟩ := h
  unfold deleteInventoryItem
  by_cases hc : (s.inventoryItems.any fun item => item.id == id) = true
  · rw [if_pos hc]
    refine ⟨⟨?_, htx, ?_⟩, ?_, ?_⟩
    · exact hsku.sublist (List.filter_sublist _)
    · intro item hmem
      exact hitem item (List.mem_of_mem_filter hmem)
    · exact hids.sublist (List.filter_sublist _)
    · intro item hmem
      obtain ⟨h1, h2⟩ := hbounds item (List.mem_of_mem_filter hmem)
      refine ⟨h1, ?_⟩
      show item.updated_at < s.clock + 1
      omega
  · rw [if_neg hc]
    exact ⟨⟨hsku, htx, hitem⟩, hids, hbounds⟩

/-- Every reachable store satisfies the invariants together with the
bookkeeping facts. -/
lemma reachable_inv_aux (s : Store) (h : Reachable s) :
    StoreInv s ∧ StoreAux s := by
  induction h with
  | empty =>
    refine ⟨⟨?_, ?_, ?_⟩, ?_, ?_⟩ <;> simp [emptyStore]
  | createTx i _ ih => exact inv_rpcCreateTransaction _ i ih
  | updateTx i _ ih => exact inv_rpcUpdateTransaction _ i ih
  | deleteTx id _ ih => exact inv_deleteTransaction _ id ih
  | createItem i _ ih => exact inv_rpcCreateInventoryItem _ i ih
  | updateItem i _ ih => exact inv_rpcUpdateInventoryItem _ i ih
  | deleteItem id _ ih => exact inv_deleteInventoryItem _ id ih

/-- C5: every store reachable from the empty store through validated
create/update/delete requests has pairwise-distinct SKUs over its
inventory items, positive transaction amounts and selling prices,
non-negative quantities and unit costs, and updated_at ≥ created_at on
every item. -/
theorem reachable_invariants (s : Store) (h : Reachable s) :
    s.inventoryItems.Pairwise (fun a b => a.sku ≠ b.sku) ∧
    (∀ t ∈ s.transactions, 0 < t.amount) ∧
    (∀ item ∈ s.inventoryItems,
      0 < item.sellingPrice ∧ 0 ≤ item.quantity ∧ 0 ≤ item.unitCost ∧
      item.created_at ≤ item.updated_at) :=
  (reachable_inv_aux s h).1

/-- Witness for C5: the invariants, instantiated at the store reached by
one validated createInventoryItem call on the empty store. -/
theorem reachable_invariants_witness :
    ((rpcCreateInventoryItem emptyStore
        { itemName := "Anvil", sku := "SKU-A", quantity := 1, unitCost := 1,
          sellingPrice := 2 }).2.inventoryItems.Pairwise
      fun a b => a.sku ≠ b.sku) ∧
    (∀ t ∈ (rpcCreateInventoryItem emptyStore
        { itemName := "Anvil", sku := "SKU-A", quantity := 1, unitCost := 1,
          sellingPrice := 2 }).2.transactions, 0 < t.amount) ∧
    (∀ item ∈ (rpcCreateInventoryItem emptyStore
        { itemName := "Anvil", sku := "SKU-A", quantity := 1, unitCost := 1,
          sellingPrice := 2 }).2.inventoryItems,
      0 < item.sellingPrice ∧ 0 ≤ item.quantity ∧ 0 ≤ item.unitCost ∧
      item.created_at ≤ item.updated_at) :=
  reachable_invariants _ (Reachable.createItem _ Reachable.empty)

end Accounting
